/-
Verification of the competint discovery pipeline against its specification.

The definitions below are a shallow embedding of the TypeScript sources:
  * src/backend/src/discovery/processors/discovery.processor.ts
      (DiscoveryProcessor: process, searchCompetitors, buildSearchQueries,
       deduplicateCompetitors, saveCompetitors, updateStatus, extractDomain,
       getRegionName)
  * src/backend/src/discovery/providers (FirecrawlProvider, AiFallbackProvider)
  * src/backend/src/discovery/extractors (BasicExtractor: candidate cleaning)
  * the EnrichmentService (enrichCompetitor, mergeCompetitorData,
    calculateDataCompleteness, calculateConfidenceScore)

External effects (HTTP search, LLM calls, database answers) are supplied as
explicit oracle records, so every function here is executable.  JavaScript
`s1 || s2` string defaulting, `Map` insertion order, truthiness checks and
`Math.round` are modelled explicitly where they matter.
-/
import Mathlib

namespace Competint

/-! ## Basic data model (src/backend/src/discovery/types.ts) -/

/-- A search result as produced by the providers. -/
structure SearchResult where
  url : String
  title : String
  snippet : String
  content : Option String
deriving Repr, DecidableEq, Inhabited

/-- Basic competitor data extracted by the BasicExtractor. -/
structure BasicCompetitor where
  name : String
  website : String
  description : String
  industry : String
  country : String
  logo_url : Option String
deriving Repr, DecidableEq, Inhabited

/-- Discovery run status (types.ts: DiscoveryStatus). -/
inductive DiscoveryStatus where
  | pending
  | searching
  | extracting
  | completed
  | failed
deriving Repr, DecidableEq, Inhabited

/-- Discovery job context (types.ts: DiscoveryContext). -/
structure DiscoveryContext where
  runId : String
  projectId : String
  organizationId : String
  userId : String
  keywords : List String
  regions : List String
  industries : Option (List String)
  maxResults : Option Nat
  isPremium : Bool
deriving Repr, DecidableEq, Inhabited

/-- Response of a search provider (types.ts: ProviderResponse). -/
structure ProviderResponse where
  success : Bool
  results : List SearchResult
  provider : String
  error : Option String
deriving Repr, DecidableEq, Inhabited

/-! ## A model of the JavaScript URL hostname

`extractDomain` calls `new URL(candidate).hostname`.  We model WHATWG URL
parsing for scheme-bearing strings: a valid scheme followed by `:`; for the
special schemes the parser skips any run of slashes and reads the authority
up to `/`, `?` or `#`; userinfo before the last `@` is dropped; an optional
numeric port after `:` is dropped; the hostname is lowercased.  Hosts with
characters outside letters / digits / `-` / `.` / `_`, empty hosts of special
schemes, and non-numeric ports make the constructor throw (`none` here).
Non-special schemes without `//` have an empty hostname. -/

def isSchemeChar (c : Char) : Bool :=
  c.isAlphanum || c = '+' || c = '-' || c = '.'

def isHostChar (c : Char) : Bool :=
  c.isAlphanum || c = '-' || c = '.' || c = '_'

/-- Split a character list at the first occurrence of `c`:
returns (before, after-without-`c`), or `none` when `c` is absent. -/
def splitAtChar (c : Char) : List Char → Option (List Char × List Char)
  | [] => none
  | x :: xs =>
    if x = c then some ([], xs)
    else match splitAtChar c xs with
      | some (before, after) => some (x :: before, after)
      | none => none

/-- Drop everything from the last `@` on (inclusive), i.e. strip userinfo.
If no `@` is present the list is returned unchanged. -/
def dropUserinfo (l : List Char) : List Char :=
  match splitAtChar '@' l.reverse with
  | some (revHost, _) => revHost.reverse
  | none => l

/-- The special schemes of the WHATWG URL standard. -/
def specialSchemes : List String := ["http", "https", "ws", "wss", "ftp", "file"]

/-- Parse an authority component (already cut at `/`, `?`, `#`) into a
hostname: strip userinfo, split off a port, validate. `allowEmpty` is true
for non-special schemes. -/
def parseAuthority (allowEmpty : Bool) (auth : List Char) : Option String :=
  let hostPort := dropUserinfo auth
  let host :=
    match splitAtChar ':' hostPort with
    | some (h, port) => if port.all Char.isDigit then some h else none
    | none => some hostPort
  match host with
  | none => none
  | some h =>
    if h.isEmpty && !allowEmpty then none
    else if h.all isHostChar then some (String.mk (h.map Char.toLower))
    else none

/-- `new URL(s).hostname`, or `none` when the constructor throws. -/
def urlHostname (s : String) : Option String :=
  match splitAtChar ':' s.data with
  | none => none
  | some (scheme, rest) =>
    if scheme.isEmpty then none
    else if !(scheme.headI.isAlpha) then none
    else if !(scheme.all isSchemeChar) then none
    else
      let schemeName := String.mk (scheme.map Char.toLower)
      if specialSchemes.contains schemeName then
        let afterSlashes := rest.dropWhile (fun c => c = '/' || c = '\\')
        let auth := afterSlashes.takeWhile (fun c => c ≠ '/' && c ≠ '?' && c ≠ '#' && c ≠ '\\')
        parseAuthority false auth
      else
        match rest with
        | '/' :: '/' :: rest2 =>
          let auth := rest2.takeWhile (fun c => c ≠ '/' && c ≠ '?' && c ≠ '#')
          parseAuthority true auth
        | _ => some ""

/-- Remove the first occurrence of `pat` from `l` (JavaScript
`String.prototype.replace` with a string pattern and empty replacement). -/
def removeFirstSub (pat : List Char) : List Char → List Char
  | [] => []
  | c :: rest =>
    if pat.isPrefixOf (c :: rest) then (c :: rest).drop pat.length
    else c :: removeFirstSub pat rest

/-- `s.startsWith(pre)`, via character lists (the byte-based library
function does not reduce in the kernel). -/
def strStartsWith (s pre : String) : Bool :=
  pre.data.isPrefixOf s.data

/-- `DiscoveryProcessor.extractDomain`:
try `new URL(url.startsWith('http') ? url : 'https://' + url)`, then
`hostname.replace('www.', '').toLowerCase()`; `null` when parsing throws. -/
def extractDomain (url : String) : Option String :=
  let candidate := if strStartsWith url "http" then url else "https://" ++ url
  match urlHostname candidate with
  | some h => some (String.mk ((removeFirstSub "www.".data h.data).map Char.toLower))
  | none => none

/-- JavaScript truthiness of a `string | null` domain value:
`null` and the empty string are falsy. -/
def domTruthy : Option String → Bool
  | some s => s ≠ ""
  | none => false

/-- The (unique) truthy domain of a competitor website, `none` when
`extractDomain` is `null` or the empty string. -/
def truthyDomain (c : BasicCompetitor) : Option String :=
  match extractDomain c.website with
  | some d => if d = "" then none else some d
  | none => none

example : extractDomain "https://www.Example.com/path" = some "example.com" := by decide
example : extractDomain "paystack.com" = some "paystack.com" := by decide
example : extractDomain "https://a.www.example.com" = some "a.example.com" := by decide
example : extractDomain "not a url" = none := by decide
example : extractDomain "" = none := by decide

/-! ## DiscoveryProcessor.buildSearchQueries and getRegionName -/

/-- `s.toUpperCase()` via character lists. -/
def strToUpper (s : String) : String :=
  String.mk (s.data.map Char.toUpper)

/-- `DiscoveryProcessor.getRegionName`: the region lookup table, falling back
to the code itself. -/
def getRegionName (code : String) : String :=
  let u := strToUpper code
  if u = "NG" then "Nigeria"
  else if u = "KE" then "Kenya"
  else if u = "CI" then "Ivory Coast"
  else if u = "GH" then "Ghana"
  else if u = "ZA" then "South Africa"
  else if u = "EG" then "Egypt"
  else code

/-- `DiscoveryProcessor.buildSearchQueries`:
for each keyword × region pair push `"<keyword> startup <regionName>"` and,
when `context.industries?.[0]` is truthy, also
`"<keyword> <industry> company <regionName>"`; finally `slice(0, 5)`. -/
def buildSearchQueries (ctx : DiscoveryContext) : List String :=
  let industry := match ctx.industries with
    | some (i :: _) => i
    | _ => ""
  ((ctx.keywords.map (fun keyword =>
    (ctx.regions.map (fun region =>
      let regionName := getRegionName region
      let primary := keyword ++ " startup " ++ regionName
      if industry ≠ "" then
        [primary, keyword ++ " " ++ industry ++ " company " ++ regionName]
      else
        [primary])).flatten)).flatten).take 5

/-! ## DiscoveryProcessor.deduplicateCompetitors -/

/-- The within-batch pass of `deduplicateCompetitors`: a JavaScript `Map`
keyed by domain in which only the first competitor per truthy domain is
stored; `Array.from(map.values())` preserves key insertion order, so the
result is the sublist of first occurrences. -/
def dedupeBatchAux (seen : List String) : List BasicCompetitor → List BasicCompetitor
  | [] => []
  | c :: rest =>
    match extractDomain c.website with
    | some d =>
      if d ≠ "" && !(seen.contains d) then c :: dedupeBatchAux (d :: seen) rest
      else dedupeBatchAux seen rest
    | none => dedupeBatchAux seen rest

/-- The set of existing organization domains:
`(existing || []).map(c => extractDomain(c.website)).filter(Boolean)`. -/
def existingDomainSet (existingWebsites : List String) : List String :=
  (existingWebsites.filterMap extractDomain).filter (fun d => d ≠ "")

/-- The arrow function inside the final `filter` of
`deduplicateCompetitors`: `domain && !existingDomains.has(domain)`. -/
def keepPred (existingDomains : List String) (c : BasicCompetitor) : Bool :=
  match extractDomain c.website with
  | some d => d ≠ "" && !(existingDomains.contains d)
  | none => false

/-- `DiscoveryProcessor.deduplicateCompetitors`: within-batch dedup by
domain, then drop candidates whose domain is already present among the
organization's competitor websites. -/
def deduplicateCompetitors (competitors : List BasicCompetitor)
    (existingWebsites : List String) : List BasicCompetitor :=
  let uniqueCompetitors := dedupeBatchAux [] competitors
  let existingDomains := existingDomainSet existingWebsites
  uniqueCompetitors.filter (keepPred existingDomains)

/-! ## DiscoveryProcessor.saveCompetitors

The `competitors` table (schema: supabase migrations) has no unique
constraint on (organization_id, domain); a Supabase `insert` therefore
appends every record and returns their ids, and a reported database error
makes `saveCompetitors` throw. -/

/-- A row of the `competitors` table as written by `saveCompetitors`. -/
structure CompetitorRow where
  organization_id : String
  search_run_id : String
  name : String
  website : String
  description : String
  industry : String
  country : String
  logo_url : Option String
  validation_status : String
  enrichment_status : String
deriving Repr, DecidableEq, Inhabited

/-- The record literal built inside `saveCompetitors`. -/
def toCompetitorRecord (organizationId runId : String) (c : BasicCompetitor) :
    CompetitorRow :=
  { organization_id := organizationId
    search_run_id := runId
    name := c.name
    website := c.website
    description := c.description
    industry := c.industry
    country := c.country
    logo_url := c.logo_url
    validation_status := "pending"
    enrichment_status := "basic" }

/-- `DiscoveryProcessor.saveCompetitors`; `insertError` is the database
error reported by the insert, if any. Returns the new table state and the
saved count, or the thrown error message. -/
def saveCompetitors (competitors : List BasicCompetitor) (runId organizationId : String)
    (table : List CompetitorRow) (insertError : Option String) :
    Except String (List CompetitorRow × Nat) :=
  if competitors.isEmpty then .ok (table, 0)
  else
    match insertError with
    | some msg => .error ("Failed to save competitors: " ++ msg)
    | none =>
      let records := competitors.map (toCompetitorRecord organizationId runId)
      .ok (table ++ records, records.length)

/-! ## DiscoveryProcessor.updateStatus -/

/-- The mutable columns of a `search_runs` row touched by `updateStatus`.
`completed_at_set` records whether `completed_at` has been written (its
value is a wall-clock timestamp). -/
structure RunRecord where
  status : DiscoveryStatus
  results_count : Option Nat
  completed_at_set : Bool
  error_message : Option String
deriving Repr, DecidableEq, Inhabited

/-- `DiscoveryProcessor.updateStatus`: build the partial update object
(status always; results_count when passed; completed_at when the new status
is `completed`; error_message when truthy) and apply it to the row.  There
is no read of the current status and no transition check. -/
def updateStatus (r : RunRecord) (status : DiscoveryStatus)
    (resultsCount : Option Nat) (errorMessage : Option String) : RunRecord :=
  { status := status
    results_count := match resultsCount with
      | some n => some n
      | none => r.results_count
    completed_at_set := if status = DiscoveryStatus.completed then true else r.completed_at_set
    error_message := match errorMessage with
      | some m => if m ≠ "" then some m else r.error_message
      | none => r.error_message }

/-! ## DiscoveryProcessor.searchCompetitors and process

External effects are collected in `WorkerFx`: the primary provider's
availability and per-query responses, the AI fallback response (a function
of the limit and industry it is called with), the AI extractor's output
for a batch of search results, and whether the insert reports an error. -/

structure WorkerFx where
  firecrawlAvailable : Bool
  firecrawl : String → ProviderResponse
  fallback : Nat → Option String → ProviderResponse
  extract : List SearchResult → List String → List String → Option String →
    List BasicCompetitor
  insertError : Option String

/-- The per-response loop body: push results whose url has not been seen. -/
def addNewResults (seen : List String) (acc : List SearchResult) :
    List SearchResult → List String × List SearchResult
  | [] => (seen, acc)
  | r :: rs =>
    if seen.contains r.url then addNewResults seen acc rs
    else addNewResults (r.url :: seen) (acc ++ [r]) rs

/-- The primary (Firecrawl) query loop of `searchCompetitors`: iterate the
queries; on success accumulate unseen results; on `INSUFFICIENT_CREDITS`
break; on any other error continue.  Returns the accumulated results and
the queries actually issued. -/
def primaryPhase (fx : WorkerFx) (seen : List String) (acc : List SearchResult) :
    List String → List SearchResult × List String
  | [] => (acc, [])
  | q :: qs =>
    let resp := fx.firecrawl q
    if resp.success then
      let s2 := addNewResults seen acc resp.results
      let rest := primaryPhase fx s2.1 s2.2 qs
      (rest.1, q :: rest.2)
    else if resp.error = some "INSUFFICIENT_CREDITS" then (acc, [q])
    else
      let rest := primaryPhase fx seen acc qs
      (rest.1, q :: rest.2)

/-- Instrumented outcome of `searchCompetitors`. -/
structure SearchOutcome where
  results : List SearchResult
  issuedQueries : List String
  fallbackInvoked : Bool
deriving Repr, DecidableEq, Inhabited

/-- JavaScript `n || d` for an optional number (0 is falsy). -/
def jsOrNat : Option Nat → Nat → Nat
  | some n, d => if n ≠ 0 then n else d
  | none, d => d

/-- The primary-provider part of `searchCompetitors`: the query loop when
Firecrawl is available, nothing otherwise. -/
def primaryOutcome (ctx : DiscoveryContext) (fx : WorkerFx) :
    List SearchResult × List String :=
  if fx.firecrawlAvailable then primaryPhase fx [] [] (buildSearchQueries ctx)
  else ([], [])

/-- `DiscoveryProcessor.searchCompetitors`: primary loop when available,
then — only when the aggregate is empty — one AI-fallback call whose
results are appended unchecked. -/
def searchCompetitorsFn (ctx : DiscoveryContext) (fx : WorkerFx) : SearchOutcome :=
  let prim := primaryOutcome ctx fx
  if prim.1.isEmpty then
    let resp := fx.fallback (jsOrNat ctx.maxResults 10) (ctx.industries >>= List.head?)
    { results := prim.1 ++ (if resp.success then resp.results else [])
      issuedQueries := prim.2
      fallbackInvoked := true }
  else
    { results := prim.1
      issuedQueries := prim.2
      fallbackInvoked := false }

/-- Result of one `process` invocation: final run row, final competitors
table, the sequence of statuses written, and the job outcome. -/
structure ProcessResult where
  run : RunRecord
  table : List CompetitorRow
  statusWrites : List DiscoveryStatus
  outcome : Except String Nat
deriving Repr, Inhabited

/-- `DiscoveryProcessor.process`: searching → (empty? completed-0) →
extracting → extract → dedup → save → completed, with the catch clause
setting `failed` when the save throws. -/
def processRun (ctx : DiscoveryContext) (fx : WorkerFx)
    (run0 : RunRecord) (table0 : List CompetitorRow) : ProcessResult :=
  let r1 := updateStatus run0 DiscoveryStatus.searching none none
  let searchResults := (searchCompetitorsFn ctx fx).results
  if searchResults.isEmpty then
    { run := updateStatus r1 DiscoveryStatus.completed (some 0) none
      table := table0
      statusWrites := [DiscoveryStatus.searching, DiscoveryStatus.completed]
      outcome := .ok 0 }
  else
    let r2 := updateStatus r1 DiscoveryStatus.extracting none none
    let industry := ctx.industries >>= List.head?
    let competitors := fx.extract searchResults ctx.keywords ctx.regions industry
    let existingWebsites :=
      (table0.filter (fun row => row.organization_id = ctx.organizationId)).map
        (fun row => row.website)
    let uniqueCompetitors := deduplicateCompetitors competitors existingWebsites
    match saveCompetitors uniqueCompetitors ctx.runId ctx.organizationId table0
      fx.insertError with
    | .error msg =>
      { run := updateStatus r2 DiscoveryStatus.failed (some 0) (some msg)
        table := table0
        statusWrites := [DiscoveryStatus.searching, DiscoveryStatus.extracting,
          DiscoveryStatus.failed]
        outcome := .error msg }
    | .ok saved =>
      { run := updateStatus r2 DiscoveryStatus.completed (some saved.2) none
        table := saved.1
        statusWrites := [DiscoveryStatus.searching, DiscoveryStatus.extracting,
          DiscoveryStatus.completed]
        outcome := .ok saved.2 }

/-! ## BasicExtractor: deterministic cleaning of model output
(src/backend/src/discovery/extractors/basic.extractor.ts)

The LLM call and JSON-array location are an oracle; the validation and
cleaning of the parsed array are embedded below. -/

/-- A candidate object as JSON-parsed from the model response. -/
structure RawCandidate where
  name : Option String
  website : Option String
  description : Option String
  industry : Option String
  country : Option String
  logo_url : Option String
deriving Repr, DecidableEq, Inhabited

/-- JavaScript truthiness of an optional string. -/
def jsTruthyS : Option String → Bool
  | some s => s ≠ ""
  | none => false

/-- `s.trim()` via character lists. -/
def strTrim (s : String) : String :=
  String.mk (((s.data.dropWhile Char.isWhitespace).reverse.dropWhile
    Char.isWhitespace).reverse)

/-- Strip trailing `/` characters (`url.replace(/\/+$/, '')`). -/
def dropTrailingSlashes (s : String) : String :=
  String.mk ((s.data.reverse.dropWhile (fun c => c = '/')).reverse)

/-- `BasicExtractor.normalizeUrl`: empty stays empty; trim; prepend
`https://` unless the string starts with `http://` or `https://`; strip
trailing slashes. -/
def normalizeUrl (url : String) : String :=
  if url = "" then ""
  else
    let t := strTrim url
    let withProto :=
      if strStartsWith t "http://" || strStartsWith t "https://" then t
      else "https://" ++ t
    dropTrailingSlashes withProto

/-- The extractor's country normalization:
`(c.country || '').toUpperCase().substring(0, 2)`. -/
def normalizeCountry (country : Option String) : String :=
  let s := match country with
    | some s => s
    | none => ""
  String.mk ((s.data.map Char.toUpper).take 2)

/-- `x?.trim() || ''`. -/
def trimOrEmpty : Option String → String
  | some d => let t := strTrim d; if t ≠ "" then t else ""
  | none => ""

/-- `c.industry?.trim() || context.industry || ''`. -/
def industryOrContext (ci : Option String) (ctxIndustry : Option String) : String :=
  let t := trimOrEmpty ci
  if t ≠ "" then t
  else match ctxIndustry with
    | some i => i
    | none => ""

/-- The validate-and-clean step of `BasicExtractor.extract`:
`.filter(c => c.name && c.website).map(...)`. -/
def cleanCandidates (parsed : List RawCandidate) (ctxIndustry : Option String) :
    List BasicCompetitor :=
  (parsed.filter (fun c => jsTruthyS c.name && jsTruthyS c.website)).map (fun c =>
    { name := strTrim ((c.name).getD "")
      website := normalizeUrl ((c.website).getD "")
      description := trimOrEmpty c.description
      industry := industryOrContext c.industry ctxIndustry
      country := normalizeCountry c.country
      logo_url := match c.logo_url with
        | some l => if l ≠ "" then some l else none
        | none => none })

/-- `BasicExtractor.extract` given the oracle outcome of the model call:
`none` models a thrown error, a missing JSON array, or a non-array parse
(all of which return `[]`); `some parsed` is the parsed candidate array. -/
def basicExtract (parsedResponse : Option (List RawCandidate))
    (ctxIndustry : Option String) : List BasicCompetitor :=
  match parsedResponse with
  | none => []
  | some parsed => cleanCandidates parsed ctxIndustry

/-! ## EnrichmentService: funding parse
(`mergeCompetitorData`, regex `/\$?([\d.]+)\s*(M|K|B)?/i`) -/

/-- Characters matched by the `[\d.]` class. -/
def isNumChar (c : Char) : Bool :=
  c.isDigit || c = '.'

/-- Scan for the first match position of `/\$?([\d.]+)\s*(M|K|B)?/`:
the earliest index at which an optional `$` is followed by at least one
digit-or-dot; returns the suffix beginning at the capture group. -/
def findNumGroup : List Char → Option (List Char)
  | [] => none
  | c :: rest =>
    if isNumChar c then some (c :: rest)
    else if c = '$' then
      match rest with
      | r :: _ => if isNumChar r then some rest else findNumGroup rest
      | [] => none
    else findNumGroup rest

/-- Decimal value of a digit run. -/
def digitsToNat (cs : List Char) : Nat :=
  cs.foldl (fun acc c => 10 * acc + (c.toNat - '0'.toNat)) 0

/-- JavaScript `parseFloat` restricted to a non-empty run of digits and
dots (the only shape the capture group can have): digits, optionally a dot
and more digits; a second dot stops the parse; no leading digit or
fractional digit at all gives `NaN` (`none`). -/
def jsParseFloatNum (cs : List Char) : Option ℚ :=
  let intPart := cs.takeWhile Char.isDigit
  let rest := cs.dropWhile Char.isDigit
  match rest with
  | '.' :: rest2 =>
    let fracPart := rest2.takeWhile Char.isDigit
    if intPart.isEmpty && fracPart.isEmpty then none
    else some ((digitsToNat intPart : ℚ) +
      (digitsToNat fracPart : ℚ) / ((10 : ℚ) ^ fracPart.length))
  | _ => if intPart.isEmpty then none else some (digitsToNat intPart : ℚ)

/-- The three observable outcomes of the funding parse:
no regex match (the field stays `undefined`), `NaN`, or a number.
Products here are exact; every concrete value the theorems below touch is
exactly representable as an IEEE double, so ℚ is faithful for them. -/
inductive FundingParse where
  | undef
  | nan
  | val (amount : ℚ)
deriving Repr, DecidableEq, Inhabited

/-- The funding-string parse inside `mergeCompetitorData`: match the regex,
`parseFloat` the capture group, apply the K/M/B multiplier
(case-insensitive). -/
def parseFundingAmount (s : String) : FundingParse :=
  match findNumGroup s.data with
  | none => FundingParse.undef
  | some suffix =>
    let group1 := suffix.takeWhile isNumChar
    let afterWs := (suffix.dropWhile isNumChar).dropWhile Char.isWhitespace
    let multiplier : ℚ :=
      match afterWs with
      | c :: _ =>
        if c = 'K' || c = 'k' then 1000
        else if c = 'M' || c = 'm' then 1000000
        else if c = 'B' || c = 'b' then 1000000000
        else 1
      | [] => 1
    match jsParseFloatNum group1 with
    | none => FundingParse.nan
    | some amount => FundingParse.val (amount * multiplier)

example : parseFundingAmount "$2.5B" = FundingParse.val 2500000000 := by
  simp [parseFundingAmount, findNumGroup, isNumChar, jsParseFloatNum, digitsToNat]
  norm_num

example : parseFundingAmount "€800K" = FundingParse.val 800000 := by
  simp [parseFundingAmount, findNumGroup, isNumChar, jsParseFloatNum, digitsToNat]
  norm_num

example : parseFundingAmount "tbd" = FundingParse.undef := by
  simp [parseFundingAmount, findNumGroup, isNumChar]

example : parseFundingAmount "$1.2M" = FundingParse.val 1200000 := by
  simp [parseFundingAmount, findNumGroup, isNumChar, jsParseFloatNum, digitsToNat]
  norm_num

/-! ## EnrichmentService data model

`EnrichedCompetitor` carries the fields `mergeCompetitorData` writes and the
score/metadata fields; `social_metrics` and `enrichment_date` (a derived
metric object and a wall-clock timestamp, read by nothing verified here) are
left out. -/

/-- A founder / leadership entry ({name, role}). -/
structure PersonRef where
  name : String
  role : String
deriving Repr, DecidableEq, Inhabited

/-- The social_links object.  A field that is present-but-empty (`some ""`)
still counts as a key for `Object.keys`. -/
structure SocialLinks where
  linkedin : Option String
  twitter : Option String
  facebook : Option String
  instagram : Option String
  youtube : Option String
  crunchbase : Option String
  github : Option String
deriving Repr, DecidableEq, Inhabited

def SocialLinks.empty : SocialLinks :=
  ⟨none, none, none, none, none, none, none⟩

/-- `Object.keys(sl).length`. -/
def SocialLinks.keysCount (sl : SocialLinks) : Nat :=
  (if sl.linkedin.isSome then 1 else 0) +
  (if sl.twitter.isSome then 1 else 0) +
  (if sl.facebook.isSome then 1 else 0) +
  (if sl.instagram.isSome then 1 else 0) +
  (if sl.youtube.isSome then 1 else 0) +
  (if sl.crunchbase.isSome then 1 else 0) +
  (if sl.github.isSome then 1 else 0)

/-- `{...a, ...b}`: a key present in `b` wins. -/
def SocialLinks.spread (a b : SocialLinks) : SocialLinks :=
  { linkedin := b.linkedin <|> a.linkedin
    twitter := b.twitter <|> a.twitter
    facebook := b.facebook <|> a.facebook
    instagram := b.instagram <|> a.instagram
    youtube := b.youtube <|> a.youtube
    crunchbase := b.crunchbase <|> a.crunchbase
    github := b.github <|> a.github }

/-- The LinkedIn fields `mergeCompetitorData` reads from the social
profile (LinkedInCompanyData). -/
structure LinkedInData where
  description : Option String
  industry : Option String
  company_size : Option String
  headquarters : Option String
  founded : Option Nat
deriving Repr, DecidableEq, Inhabited

def LinkedInData.empty : LinkedInData :=
  ⟨none, none, none, none, none⟩

/-- A SocialMediaProfile: for `twitter` and `facebook` only the presence of
the sub-object is ever read (`if (socialProfile.twitter) ...`). -/
structure SocialProfile where
  linkedin : Option LinkedInData
  twitter_present : Bool
  facebook_present : Bool
deriving Repr, DecidableEq, Inhabited

def SocialProfile.empty : SocialProfile :=
  ⟨none, false, false⟩

/-- CompanyExtractedData (firecrawl.service): the structured-scrape output;
every field optional since the scrape may return any subset. -/
structure ExtractedData where
  company_name : Option String
  tagline : Option String
  description : Option String
  founding_year : Option Nat
  headquarters : Option String
  employee_count : Option String
  business_model : Option String
  value_proposition : Option String
  products_services : Option (List String)
  target_market : Option String
  pricing_model : Option String
  founders : Option (List PersonRef)
  leadership_team : Option (List PersonRef)
  funding_stage : Option String
  total_funding : Option String
  investors : Option (List String)
  social_links : Option SocialLinks
  contact_email : Option String
  phone : Option String
  technologies : Option (List String)
  features : Option (List String)
  integrations : Option (List String)
  customers : Option (List String)
  partnerships : Option (List String)
  awards : Option (List String)
  press_mentions : Option (List String)
deriving Repr, DecidableEq, Inhabited

def ExtractedData.empty : ExtractedData :=
  ⟨none, none, none, none, none, none, none, none, none, none, none, none,
   none, none, none, none, none, none, none, none, none, none, none, none,
   none, none⟩

/-- The SWOT object of the AI analysis. -/
structure SwotData where
  strengths : List String
  weaknesses : List String
  opportunities : List String
  threats : List String
deriving Repr, DecidableEq, Inhabited

/-- The fields of a parsed `generateAiAnalysis` response. -/
structure AnalysisData where
  competitive_analysis : Option SwotData
  market_positioning : Option String
  growth_signals : Option (List String)
  risk_factors : Option (List String)
deriving Repr, DecidableEq, Inhabited

/-- The fields of `initialData` that `enrichCompetitor` and
`mergeCompetitorData` actually read (initialData is a Partial record). -/
structure InitialData where
  name : Option String
  description : Option String
  country : Option String
  region : Option String
  business_model : Option String
  industry : Option String
  technologies : Option (List String)
deriving Repr, DecidableEq, Inhabited

def InitialData.empty : InitialData :=
  ⟨none, none, none, none, none, none, none⟩

/-- The merged competitor record. -/
structure EnrichedCompetitor where
  name : String
  website : String
  tagline : Option String
  description : Option String
  founding_year : Option Nat
  headquarters : Option String
  country : Option String
  region : Option String
  employee_count : Option String
  business_model : Option String
  value_proposition : Option String
  products_services : Option (List String)
  target_market : Option String
  pricing_model : Option String
  industry : Option String
  founders : Option (List PersonRef)
  leadership_team : Option (List PersonRef)
  funding_stage : Option String
  total_funding : Option String
  funding_amount_usd : FundingParse
  investors : Option (List String)
  social_links : Option SocialLinks
  contact_email : Option String
  phone : Option String
  technologies : Option (List String)
  features : Option (List String)
  integrations : Option (List String)
  customers : Option (List String)
  partnerships : Option (List String)
  awards : Option (List String)
  press_mentions : Option (List String)
  competitive_analysis : Option SwotData
  market_positioning : Option String
  growth_signals : Option (List String)
  risk_factors : Option (List String)
  data_sources : List String
  confidence_score : Nat
  data_completeness : Nat
deriving Repr, DecidableEq, Inhabited

/-- JavaScript `a || b` on optional strings ("" is falsy). -/
def jsOrStr : Option String → Option String → Option String
  | some a, b => if a ≠ "" then some a else b
  | none, b => b

/-- JavaScript `a || b` on optional numbers (0 is falsy). -/
def jsOrNum : Option Nat → Option Nat → Option Nat
  | some a, b => if a ≠ 0 then some a else b
  | none, b => b

/-- JavaScript `a || b` on optional arrays/objects (present-but-empty is
still truthy). -/
def jsOrObj {α : Type} : Option α → Option α → Option α
  | some a, _ => some a
  | none, b => b

/-- `EnrichmentService.extractDomainName`: hostname of the url (no `https://`
prefixing here), first `www.` removed, first dot-separated label with its
first character upper-cased; `'Unknown'` when the URL constructor throws. -/
def extractDomainName (url : String) : String :=
  match urlHostname url with
  | some h =>
    let domain := removeFirstSub "www.".data h.data
    let firstLabel := domain.takeWhile (fun c => c ≠ '.')
    match firstLabel with
    | [] => ""
    | c :: rest => String.mk (c.toUpper :: rest)
  | none => "Unknown"

/-- `EnrichmentService.mergeCompetitorData`. -/
def mergeCompetitorData (initial : InitialData) (extracted : ExtractedData)
    (social : SocialProfile) (url : String) : EnrichedCompetitor :=
  let fundingAmountUsd :=
    match extracted.total_funding with
    | some tf => if tf ≠ "" then parseFundingAmount tf else FundingParse.undef
    | none => FundingParse.undef
  let linkedinData := (social.linkedin).getD LinkedInData.empty
  { name := match jsOrStr extracted.company_name initial.name with
      | some s => s
      | none => extractDomainName url
    website := url
    tagline := extracted.tagline
    description := jsOrStr extracted.description
      (jsOrStr initial.description linkedinData.description)
    founding_year := jsOrNum extracted.founding_year linkedinData.founded
    headquarters := jsOrStr extracted.headquarters linkedinData.headquarters
    country := initial.country
    region := initial.region
    employee_count := jsOrStr extracted.employee_count linkedinData.company_size
    business_model := jsOrStr extracted.business_model initial.business_model
    value_proposition := extracted.value_proposition
    products_services := extracted.products_services
    target_market := extracted.target_market
    pricing_model := extracted.pricing_model
    industry := jsOrStr linkedinData.industry initial.industry
    founders := extracted.founders
    leadership_team := extracted.leadership_team
    funding_stage := extracted.funding_stage
    total_funding := extracted.total_funding
    funding_amount_usd := fundingAmountUsd
    investors := extracted.investors
    social_links := extracted.social_links
    contact_email := extracted.contact_email
    phone := extracted.phone
    technologies := jsOrObj extracted.technologies initial.technologies
    features := extracted.features
    integrations := extracted.integrations
    customers := extracted.customers
    partnerships := extracted.partnerships
    awards := extracted.awards
    press_mentions := extracted.press_mentions
    competitive_analysis := none
    market_positioning := none
    growth_signals := none
    risk_factors := none
    data_sources := []
    confidence_score := 0
    data_completeness := 0 }

/-! ## EnrichmentService scoring -/

/-- Filled-check for a string field:
`value !== null && value !== undefined && value !== ''`. -/
def strFilled : Option String → Bool
  | some s => s ≠ ""
  | none => false

/-- Filled-check for an array field: `Array.isArray → length > 0`. -/
def arrFilled {α : Type} : Option (List α) → Bool
  | some l => !l.isEmpty
  | none => false

/-- Filled-check for the social_links object:
`typeof value === 'object' → Object.keys(value || {}).length > 0`. -/
def objFilled : Option SocialLinks → Bool
  | some sl => sl.keysCount ≠ 0
  | none => false

/-- The number of filled fields among the 14 `importantFields` of
`calculateDataCompleteness`. -/
def importantFieldsFilled (d : EnrichedCompetitor) : Nat :=
  (if d.name ≠ "" then 1 else 0) +
  (if d.website ≠ "" then 1 else 0) +
  (if strFilled d.description then 1 else 0) +
  (if strFilled d.business_model then 1 else 0) +
  (if strFilled d.value_proposition then 1 else 0) +
  (if strFilled d.industry then 1 else 0) +
  (if strFilled d.country then 1 else 0) +
  (if (d.founding_year).isSome then 1 else 0) +
  (if strFilled d.employee_count then 1 else 0) +
  (if arrFilled d.founders then 1 else 0) +
  (if strFilled d.funding_stage then 1 else 0) +
  (if strFilled d.total_funding then 1 else 0) +
  (if objFilled d.social_links then 1 else 0) +
  (if arrFilled d.technologies then 1 else 0)

/-- `calculateDataCompleteness` = `Math.round(filled / 14 * 100)`.
`(200 f + 14) / 28` in ℕ equals `⌊100 f / 14 + 1/2⌋`; no `f ∈ [0,14]` hits
an exact half, so this matches the IEEE evaluation. -/
def calculateDataCompleteness (d : EnrichedCompetitor) : Nat :=
  (200 * importantFieldsFilled d + 14) / 28

/-- `Math.round(completeness * 0.3)` for a natural completeness:
`(3 n + 5) / 10` in ℕ; checked against IEEE `n * 0.3` for n ∈ [0, 100]
(the float product rounds to the same integer everywhere there). -/
def roundThirty (n : Nat) : Nat :=
  (3 * n + 5) / 10

/-- `calculateConfidenceScore(data, sources)`. -/
def calculateConfidenceScore (d : EnrichedCompetitor) (sources : List String) :
    Nat :=
  let sourceScore := min (sources.length * 10) 40
  let completeness := calculateDataCompleteness d
  let verified :=
    (if d.website ≠ "" then 5 else 0) +
    (if strFilled ((d.social_links).bind (fun sl => sl.linkedin)) then 10 else 0) +
    (if strFilled d.funding_stage then 5 else 0) +
    (if arrFilled d.founders then 5 else 0) +
    (if arrFilled d.technologies then 5 else 0)
  min (sourceScore + roundThirty completeness + verified) 100

/-! ## EnrichmentService.enrichCompetitor

Oracles: the structured scrape, the crawl, the social-link regex
extraction, and the social enrichment can each succeed or throw; the AI
analysis call never propagates (`generateAiAnalysis` catches internally and
returns `{}`), so its oracle is `Option AnalysisData` — `none` is a failed
or unparseable model call. -/

/-- One crawl outcome: the page markdowns and `totalPages`. -/
structure CrawlOutcome where
  pages : List String
  totalPages : Nat
deriving Repr, DecidableEq, Inhabited

structure EnrichFx where
  scrapeExtract : Except String ExtractedData
  crawl : Except String CrawlOutcome
  extractSocial : Except String SocialLinks
  socialEnrich : SocialLinks → Except String SocialProfile
  aiAnalysis : Option AnalysisData

/-- Options of `enrichCompetitor` (all optional). -/
structure EnrichOptions where
  includeSocialMedia : Option Bool
  includeAiAnalysis : Option Bool
  crawlDepth : Option Nat
deriving Repr, DecidableEq, Inhabited

def EnrichOptions.empty : EnrichOptions :=
  ⟨none, none, none⟩

/-- `options?.includeSocialMedia !== false`. -/
def socialMediaEnabled (options : Option EnrichOptions) : Bool :=
  match options >>= (fun o => o.includeSocialMedia) with
  | some b => b
  | none => true

/-- `options?.includeAiAnalysis !== false`. -/
def aiAnalysisEnabled (options : Option EnrichOptions) : Bool :=
  match options >>= (fun o => o.includeAiAnalysis) with
  | some b => b
  | none => true

/-- `name.toLowerCase().replace(/\s+/g, '').replace(/[^a-z0-9]/g, '')`. -/
def companySlug (name : String) : String :=
  String.mk ((name.data.map Char.toLower).filter
    (fun c => c.isLower || c.isDigit))

/-- The synthesized social links when none were discovered. -/
def generatedSocialLinks (name : String) : SocialLinks :=
  let slug := companySlug name
  { linkedin := some ("https://linkedin.com/company/" ++ slug)
    twitter := some ("https://twitter.com/" ++ slug)
    facebook := some ("https://facebook.com/" ++ slug)
    instagram := some ("https://instagram.com/" ++ slug)
    youtube := none
    crunchbase := none
    github := none }

/-- `EnrichmentService.generateBasicAnalysis` (the fallback analysis; in the
shipped code it is unreachable because `generateAiAnalysis` swallows its own
failures, but it is embedded for completeness). -/
def generateBasicAnalysis (d : EnrichedCompetitor) : AnalysisData :=
  { competitive_analysis := some
      { strengths := if strFilled d.description
          then ["Established market presence"] else []
        weaknesses := ["Limited data available for analysis"]
        opportunities := ["Market expansion potential"]
        threats := ["Competitive market landscape"] }
    market_positioning := some (match d.business_model with
      | some bm => if bm ≠ "" then bm else "Digital platform"
      | none => "Digital platform")
    growth_signals := some (match d.funding_stage with
      | some fs => if fs ≠ "" then [fs ++ " funding secured"] else []
      | none => [])
    risk_factors := some ["Market competition"] }

/-- `EnrichmentService.enrichCompetitor`. -/
def enrichCompetitor (url : String) (initialData : Option InitialData)
    (options : Option EnrichOptions) (fx : EnrichFx) : EnrichedCompetitor :=
  -- const dataSources = ['website'];
  let dataSources0 : List String := ["website"]
  -- 1. structured scrape (failure caught)
  let extractedData : Option ExtractedData :=
    match fx.scrapeExtract with
    | .ok d => some d
    | .error _ => none
  -- 2. optional crawl (failure caught); only dataSources matters downstream
  let doCrawl :=
    match options >>= (fun o => o.crawlDepth) with
    | some d => decide (d > 1)
    | none => false
  let dataSources1 :=
    if doCrawl then
      match fx.crawl with
      | .ok outcome =>
        if outcome.totalPages > 0 then dataSources0 ++ ["website_crawl"]
        else dataSources0
      | .error _ => dataSources0
    else dataSources0
  -- 3. social links: extracted, regex-extraction fallback, generated guesses
  let socialLinks0 :=
    match extractedData with
    | some d => (d.social_links).getD SocialLinks.empty
    | none => SocialLinks.empty
  let socialLinks1 :=
    if !(strFilled socialLinks0.linkedin) && !(strFilled socialLinks0.twitter)
    then
      match fx.extractSocial with
      | .ok ex => SocialLinks.spread socialLinks0 ex
      | .error _ => socialLinks0
    else socialLinks0
  let initialName : Option String :=
    match initialData with
    | some i => i.name
    | none => none
  let socialLinks :=
    if socialLinks1.keysCount = 0 && jsTruthyS initialName then
      generatedSocialLinks (initialName.getD "")
    else socialLinks1
  -- 4. social enrichment (failure caught, no sources added then)
  let includeSM := socialMediaEnabled options
  let step4 :=
    if includeSM && socialLinks.keysCount > 0 then
      match fx.socialEnrich socialLinks with
      | .ok p =>
        (p, dataSources1
          ++ (if (p.linkedin).isSome then ["linkedin"] else [])
          ++ (if p.twitter_present then ["twitter"] else [])
          ++ (if p.facebook_present then ["facebook"] else []))
      | .error _ => (SocialProfile.empty, dataSources1)
    else (SocialProfile.empty, dataSources1)
  let socialProfile := step4.1
  let dataSources2 := step4.2
  -- 5. merge, then patch empty social_links
  let merged0 := mergeCompetitorData (initialData.getD InitialData.empty)
    (extractedData.getD ExtractedData.empty) socialProfile url
  let merged :=
    if (match merged0.social_links with
        | some sl => decide (sl.keysCount = 0)
        | none => true) then
      { merged0 with social_links := some socialLinks }
    else merged0
  -- 6. AI analysis: the push happens whenever the step is enabled
  let includeAI := aiAnalysisEnabled options
  let step6 : Option AnalysisData × List String :=
    if includeAI then (fx.aiAnalysis, dataSources2 ++ ["ai_analysis"])
    else (none, dataSources2)
  let aiData := step6.1
  let dataSources3 := step6.2
  -- 7. scores over the merged data, then assemble the final record
  let completeness := calculateDataCompleteness merged
  let confidence := calculateConfidenceScore merged dataSources3
  { merged with
    competitive_analysis :=
      (aiData.bind (fun a => a.competitive_analysis)) <|> merged.competitive_analysis
    market_positioning :=
      (aiData.bind (fun a => a.market_positioning)) <|> merged.market_positioning
    growth_signals :=
      (aiData.bind (fun a => a.growth_signals)) <|> merged.growth_signals
    risk_factors :=
      (aiData.bind (fun a => a.risk_factors)) <|> merged.risk_factors
    social_links := some socialLinks
    data_sources := dataSources3
    confidence_score := confidence
    data_completeness := completeness }

/-! ## Shared lemmas about the deduplication pass -/

/-- Everything the within-batch pass keeps comes from the input batch. -/
theorem mem_dedupeBatchAux {c : BasicCompetitor} :
    ∀ {l : List BasicCompetitor} {seen : List String},
    c ∈ dedupeBatchAux seen l → c ∈ l := by
  intro l
  induction l with
  | nil => intro seen h; simp [dedupeBatchAux] at h
  | cons a rest ih =>
    intro seen h
    unfold dedupeBatchAux at h
    split at h
    · split at h
      · rcases List.mem_cons.mp h with h1 | h2
        · exact h1 ▸ List.mem_cons_self a rest
        · exact List.mem_cons_of_mem a (ih h2)
      · exact List.mem_cons_of_mem a (ih h)
    · exact List.mem_cons_of_mem a (ih h)

/-- Everything the within-batch pass keeps has a truthy domain. -/
theorem dedupeBatchAux_truthy {c : BasicCompetitor} :
    ∀ {l : List BasicCompetitor} {seen : List String},
    c ∈ dedupeBatchAux seen l → domTruthy (extractDomain c.website) = true := by
  intro l
  induction l with
  | nil => intro seen h; simp [dedupeBatchAux] at h
  | cons a rest ih =>
    intro seen h
    unfold dedupeBatchAux at h
    split at h
    next d hdom =>
      split at h
      next hk =>
        rcases List.mem_cons.mp h with h1 | h2
        · subst h1
          simp only [domTruthy, hdom]
          exact ((Bool.and_eq_true _ _).mp hk).1
        · exact ih h2
      next hk => exact ih h
    next hdom => exact ih h


/-- Membership in the existing-domain set. -/
theorem mem_existingDomainSet {w : String} {websites : List String} {d : String}
    (hw : w ∈ websites) (hd : extractDomain w = some d) (hne : d ≠ "") :
    d ∈ existingDomainSet websites := by
  unfold existingDomainSet
  refine List.mem_filter.mpr ⟨?_, by simpa using hne⟩
  exact List.mem_filterMap.mpr ⟨w, hw, hd⟩

/-- Candidates whose website is already recorded for the organization are
all dropped by `deduplicateCompetitors`. -/
theorem dedup_drops_known {comps : List BasicCompetitor} {websites : List String}
    (h : ∀ c ∈ comps, c.website ∈ websites) :
    deduplicateCompetitors comps websites = [] := by
  unfold deduplicateCompetitors
  rw [List.filter_eq_nil_iff]
  intro c hc
  have hmem := mem_dedupeBatchAux hc
  have htr := dedupeBatchAux_truthy hc
  rcases hdom : extractDomain c.website with _ | d
  · rw [hdom] at htr; simp [domTruthy] at htr
  · have hne : d ≠ "" := by
      rw [hdom] at htr; simpa [domTruthy] using htr
    have hin : d ∈ existingDomainSet websites :=
      mem_existingDomainSet (h c hmem) hdom hne
    simp [keepPred, hdom, hne, hin]

/-! ## Claim C1 -/

/-- The forward order on run statuses:
pending < searching < extracting < (completed | failed). -/
def statusRank : DiscoveryStatus → Nat
  | DiscoveryStatus.pending => 0
  | DiscoveryStatus.searching => 1
  | DiscoveryStatus.extracting => 2
  | DiscoveryStatus.completed => 3
  | DiscoveryStatus.failed => 3

/-- A freshly created run row (status `pending`). -/
def runPending : RunRecord :=
  { status := DiscoveryStatus.pending, results_count := none,
    completed_at_set := false, error_message := none }

/-- C1 (counterexample): `updateStatus` does not reject a lower status after
`completed` — writing `pending` onto a completed run row succeeds and the
stored status regresses to `pending`, so a completed run is not immutable at
this level. -/
theorem C1_counterexample :
    (updateStatus runPending DiscoveryStatus.completed (some 3) none).status =
      DiscoveryStatus.completed ∧
    (updateStatus (updateStatus runPending DiscoveryStatus.completed (some 3) none)
        DiscoveryStatus.pending none none).status = DiscoveryStatus.pending :=
  ⟨rfl, rfl⟩

/-- C1 (amended): `updateStatus` writes its argument status unconditionally —
there is no transition guard in the adapter — and monotonicity holds only
because `process` itself issues statuses in forward order: every status
trace it writes is `searching, completed`, or `searching, extracting,
completed`, or `searching, extracting, failed`, each strictly increasing in
the order pending < searching < extracting < (completed | failed). -/
theorem C1_amended_status_flow :
    (∀ (r : RunRecord) (s : DiscoveryStatus) (rc : Option Nat) (em : Option String),
      (updateStatus r s rc em).status = s) ∧
    ∀ (ctx : DiscoveryContext) (fx : WorkerFx) (run0 : RunRecord)
      (table0 : List CompetitorRow),
      ((processRun ctx fx run0 table0).statusWrites =
          [DiscoveryStatus.searching, DiscoveryStatus.completed] ∨
       (processRun ctx fx run0 table0).statusWrites =
          [DiscoveryStatus.searching, DiscoveryStatus.extracting,
           DiscoveryStatus.completed] ∨
       (processRun ctx fx run0 table0).statusWrites =
          [DiscoveryStatus.searching, DiscoveryStatus.extracting,
           DiscoveryStatus.failed]) ∧
      List.Chain' (fun a b => statusRank a < statusRank b)
        (processRun ctx fx run0 table0).statusWrites := by
  refine ⟨fun r s rc em => rfl, fun ctx fx run0 table0 => ?_⟩
  simp only [processRun]
  split
  · exact ⟨Or.inl rfl, by
      show List.Chain' (fun a b => statusRank a < statusRank b)
        [DiscoveryStatus.searching, DiscoveryStatus.completed]
      simp [List.chain'_cons, statusRank]⟩
  · split
    · exact ⟨Or.inr (Or.inr rfl), by
        show List.Chain' (fun a b => statusRank a < statusRank b)
          [DiscoveryStatus.searching, DiscoveryStatus.extracting,
           DiscoveryStatus.failed]
        simp [List.chain'_cons, statusRank]⟩
    · exact ⟨Or.inr (Or.inl rfl), by
        show List.Chain' (fun a b => statusRank a < statusRank b)
          [DiscoveryStatus.searching, DiscoveryStatus.extracting,
           DiscoveryStatus.completed]
        simp [List.chain'_cons, statusRank]⟩

/-! ## Claim C2 -/

/-- A concrete competitor for the persistence claims. -/
def compPay : BasicCompetitor :=
  { name := "Paystack", website := "https://paystack.com",
    description := "Payments", industry := "Fintech", country := "NG",
    logo_url := none }

/-- The row `saveCompetitors` builds from `compPay`. -/
def rowPay : CompetitorRow := toCompetitorRecord "org1" "run1" compPay

/-- C2 (counterexample): `saveCompetitors` applied twice with the identical
single record inserts it twice — the second call returns 1 (not 0) and the
table ends with duplicate rows — and a reported database conflict makes the
whole call throw instead of skipping. -/
theorem C2_counterexample :
    saveCompetitors [compPay] "run1" "org1" [] none = Except.ok ([rowPay], 1) ∧
    saveCompetitors [compPay] "run1" "org1" [rowPay] none =
      Except.ok ([rowPay, rowPay], 1) ∧
    saveCompetitors [compPay] "run1" "org1" [rowPay]
        (some "duplicate key value") =
      Except.error ("Failed to save competitors: " ++ "duplicate key value") :=
  ⟨rfl, rfl, rfl⟩

/-- C2 (amended): `saveCompetitors` is a plain insert with no conflict
handling (the schema has no (organization_id, domain) unique key): with no
database error it appends every record and returns their count regardless of
what the table already holds; a database error makes it throw, failing the
operation.  Run-level idempotence comes only from the preceding
`deduplicateCompetitors`, which drops every candidate whose website is
already recorded for the organization. -/
theorem C2_amended_plain_insert :
    (∀ (comps : List BasicCompetitor) (runId orgId : String)
        (table : List CompetitorRow),
      saveCompetitors comps runId orgId table none =
        Except.ok (table ++ comps.map (toCompetitorRecord orgId runId),
          (comps.map (toCompetitorRecord orgId runId)).length)) ∧
    (∀ (comps : List BasicCompetitor) (runId orgId : String)
        (table : List CompetitorRow) (msg : String), comps ≠ [] →
      saveCompetitors comps runId orgId table (some msg) =
        Except.error ("Failed to save competitors: " ++ msg)) ∧
    (∀ (comps : List BasicCompetitor) (websites : List String),
      (∀ c ∈ comps, c.website ∈ websites) →
      deduplicateCompetitors comps websites = []) := by
  refine ⟨?_, ?_, ?_⟩
  · intro comps runId orgId table
    cases comps with
    | nil => simp [saveCompetitors]
    | cons a l => simp [saveCompetitors]
  · intro comps runId orgId table msg hne
    cases comps with
    | nil => exact absurd rfl hne
    | cons a l => simp [saveCompetitors]
  · intro comps websites h
    exact dedup_drops_known h

/-- C2 witness: the amended statement applied at concrete inputs. -/
theorem C2_amended_plain_insert_witness :
    ([compPay] ≠ ([] : List BasicCompetitor)) ∧
    saveCompetitors [compPay] "run1" "org1" [] (some "db down") =
      Except.error ("Failed to save competitors: " ++ "db down") ∧
    (∀ c ∈ [compPay], c.website ∈ ["https://paystack.com"]) ∧
    deduplicateCompetitors [compPay] ["https://paystack.com"] = [] := by
  have h1 : [compPay] ≠ ([] : List BasicCompetitor) := by decide
  have h2 : ∀ c ∈ [compPay], c.website ∈ ["https://paystack.com"] := by decide
  exact ⟨h1, C2_amended_plain_insert.2.1 [compPay] "run1" "org1" [] "db down" h1,
    h2, C2_amended_plain_insert.2.2 [compPay] ["https://paystack.com"] h2⟩

/-! ## Claim C3 -/

/-- C3: when the search phase (primary plus AI fallback) yields zero
results, `process` sets the run directly to `completed` with
results_count = 0, inserts no competitor rows, succeeds, and never writes
`failed`. -/
theorem C3_empty_search_completes (ctx : DiscoveryContext) (fx : WorkerFx)
    (run0 : RunRecord) (table0 : List CompetitorRow)
    (h : (searchCompetitorsFn ctx fx).results = []) :
    (processRun ctx fx run0 table0).run.status = DiscoveryStatus.completed ∧
    (processRun ctx fx run0 table0).run.results_count = some 0 ∧
    (processRun ctx fx run0 table0).table = table0 ∧
    (processRun ctx fx run0 table0).statusWrites =
      [DiscoveryStatus.searching, DiscoveryStatus.completed] ∧
    (processRun ctx fx run0 table0).outcome = Except.ok 0 := by
  unfold processRun
  rw [h]
  simp [updateStatus]

/-- A context used by concrete worker runs. -/
def ctxBase : DiscoveryContext :=
  { runId := "run1", projectId := "p1", organizationId := "org1",
    userId := "u1", keywords := ["payments"], regions := ["NG"],
    industries := none, maxResults := none, isPremium := false }

/-- Effects in which the primary provider is unavailable and the fallback
returns an unparseable model response. -/
def fxNoResults : WorkerFx :=
  { firecrawlAvailable := false
    firecrawl := fun _ =>
      { success := false, results := [], provider := "firecrawl",
        error := some "Firecrawl not configured" }
    fallback := fun _ _ =>
      { success := false, results := [], provider := "ai",
        error := some "Invalid AI response format" }
    extract := fun _ _ _ _ => []
    insertError := none }

/-- C3 witness: the theorem applied to a run whose providers return
nothing. -/
theorem C3_empty_search_completes_witness :
    (searchCompetitorsFn ctxBase fxNoResults).results = [] ∧
    ((processRun ctxBase fxNoResults runPending []).run.status =
        DiscoveryStatus.completed ∧
      (processRun ctxBase fxNoResults runPending []).run.results_count = some 0 ∧
      (processRun ctxBase fxNoResults runPending []).table = [] ∧
      (processRun ctxBase fxNoResults runPending []).statusWrites =
        [DiscoveryStatus.searching, DiscoveryStatus.completed] ∧
      (processRun ctxBase fxNoResults runPending []).outcome = Except.ok 0) :=
  have h : (searchCompetitorsFn ctxBase fxNoResults).results = [] := by decide
  ⟨h, C3_empty_search_completes ctxBase fxNoResults runPending [] h⟩

/-! ## Claim C4 -/

/-- A response that stops the primary loop:
`!response.success && response.error === 'INSUFFICIENT_CREDITS'`. -/
def isCreditsFailure (resp : ProviderResponse) : Bool :=
  !resp.success && decide (resp.error = some "INSUFFICIENT_CREDITS")

/-- The queries the primary loop issues: every query up to and including
the first credits failure (queries with other failures are issued and
skipped). -/
def takeThroughCredits (fx : WorkerFx) : List String → List String
  | [] => []
  | q :: qs =>
    let resp := fx.firecrawl q
    if resp.success then q :: takeThroughCredits fx qs
    else if resp.error = some "INSUFFICIENT_CREDITS" then [q]
    else q :: takeThroughCredits fx qs

/-- The issued-queries component of the primary loop does not depend on the
accumulator and equals the stop-at-credits scan. -/
theorem primaryPhase_issued (fx : WorkerFx) :
    ∀ (qs seen : List String) (acc : List SearchResult),
    (primaryPhase fx seen acc qs).2 = takeThroughCredits fx qs := by
  intro qs
  induction qs with
  | nil => intro seen acc; rfl
  | cons q rest ih =>
    intro seen acc
    unfold primaryPhase takeThroughCredits
    by_cases hs : (fx.firecrawl q).success = true
    · simp [hs, ih]
    · by_cases he : (fx.firecrawl q).error = some "INSUFFICIENT_CREDITS"
      · simp [hs, he]
      · simp [hs, he, ih]

/-- `takeThroughCredits` returns a prefix of the built queries. -/
theorem takeThroughCredits_isPrefix (fx : WorkerFx) :
    ∀ qs : List String, (takeThroughCredits fx qs).IsPrefix qs := by
  intro qs
  induction qs with
  | nil => exact ⟨[], rfl⟩
  | cons q rest ih =>
    unfold takeThroughCredits
    by_cases hs : (fx.firecrawl q).success = true
    · obtain ⟨t, ht⟩ := ih
      exact ⟨t, by simp [hs, List.cons_append, ht]⟩
    · by_cases he : (fx.firecrawl q).error = some "INSUFFICIENT_CREDITS"
      · exact ⟨rest, by simp [hs, he]⟩
      · obtain ⟨t, ht⟩ := ih
        exact ⟨t, by simp [hs, he, List.cons_append, ht]⟩

/-- Invariants of the unseen-url accumulation: every accumulated url is in
the seen set, and the accumulated urls stay pairwise distinct. -/
theorem addNewResults_spec :
    ∀ (rs : List SearchResult) (seen : List String) (acc : List SearchResult),
    (∀ r ∈ acc, r.url ∈ seen) → ((acc.map (fun r => r.url)).Nodup) →
    (∀ r ∈ (addNewResults seen acc rs).2, r.url ∈ (addNewResults seen acc rs).1) ∧
    (((addNewResults seen acc rs).2.map (fun r => r.url)).Nodup) := by
  intro rs
  induction rs with
  | nil => intro seen acc h1 h2; exact ⟨h1, h2⟩
  | cons r rest ih =>
    intro seen acc h1 h2
    unfold addNewResults
    by_cases hc : seen.contains r.url = true
    · simp only [hc, if_true]
      exact ih seen acc h1 h2
    · simp only [hc, if_false]
      have hnotin : r.url ∉ seen := by
        intro hmem
        exact hc (List.elem_iff.mpr hmem)
      apply ih
      · intro x hx
        rcases List.mem_append.mp hx with hx1 | hx2
        · exact List.mem_cons_of_mem _ (h1 x hx1)
        · rw [List.mem_singleton.mp hx2]
          exact List.mem_cons_self _ _
      · rw [List.map_append]
        refine List.Nodup.append h2 (List.nodup_singleton _) ?_
        intro u hu hv
        simp only [List.map_cons, List.map_nil, List.mem_singleton] at hv
        subst hv
        obtain ⟨x, hx, hxu⟩ := List.mem_map.mp hu
        exact hnotin (hxu ▸ h1 x hx)

/-- The primary loop never accumulates two results with the same url. -/
theorem primaryPhase_results_nodup (fx : WorkerFx) :
    ∀ (qs seen : List String) (acc : List SearchResult),
    (∀ r ∈ acc, r.url ∈ seen) → ((acc.map (fun r => r.url)).Nodup) →
    (((primaryPhase fx seen acc qs).1.map (fun r => r.url)).Nodup) := by
  intro qs
  induction qs with
  | nil => intro seen acc _ h2; exact h2
  | cons q rest ih =>
    intro seen acc h1 h2
    unfold primaryPhase
    by_cases hs : (fx.firecrawl q).success = true
    · simp only [hs, if_true]
      obtain ⟨h1b, h2b⟩ := addNewResults_spec (fx.firecrawl q).results seen acc h1 h2
      exact ih _ _ h1b h2b
    · by_cases he : (fx.firecrawl q).error = some "INSUFFICIENT_CREDITS"
      · simp only [hs, he, if_false, if_true]
        exact h2
      · simp only [hs, he, if_false]
        exact ih seen acc h1 h2

/-- After a run of non-credit responses, the first credits failure is the
last query ever issued. -/
theorem takeThroughCredits_stops (fx : WorkerFx) :
    ∀ (qs1 : List String) (q : String) (qs2 : List String),
    isCreditsFailure (fx.firecrawl q) = true →
    (∀ p ∈ qs1, isCreditsFailure (fx.firecrawl p) = false) →
    takeThroughCredits fx (qs1 ++ q :: qs2) = qs1 ++ [q] := by
  intro qs1
  induction qs1 with
  | nil =>
    intro q qs2 hq _
    have hs : (fx.firecrawl q).success = false := by
      rcases Bool.and_eq_true _ _ |>.mp hq with ⟨hns, _⟩
      simpa using hns
    have he : (fx.firecrawl q).error = some "INSUFFICIENT_CREDITS" := by
      rcases Bool.and_eq_true _ _ |>.mp hq with ⟨_, hee⟩
      exact of_decide_eq_true hee
    simp [takeThroughCredits, hs, he]
  | cons p ps ih =>
    intro q qs2 hq hps
    have hp : isCreditsFailure (fx.firecrawl p) = false :=
      hps p (List.mem_cons_self p ps)
    have hrec := ih q qs2 hq (fun x hx => hps x (List.mem_cons_of_mem p hx))
    by_cases hs : (fx.firecrawl p).success = true
    · simp [takeThroughCredits, hs, hrec]
    · have he : ¬((fx.firecrawl p).error = some "INSUFFICIENT_CREDITS") := by
        intro hee
        have : isCreditsFailure (fx.firecrawl p) = true := by
          simp [isCreditsFailure, hs, hee]
        rw [this] at hp
        exact absurd hp (by decide)
      simp [takeThroughCredits, hs, he, hrec]

/-- There is always an `ok` result from a save with no database error. -/
theorem saveCompetitors_none_ok (comps : List BasicCompetitor)
    (runId orgId : String) (table : List CompetitorRow) :
    ∃ pr, saveCompetitors comps runId orgId table none = Except.ok pr := by
  cases comps with
  | nil => exact ⟨(table, 0), rfl⟩
  | cons a l => exact ⟨_, rfl⟩

/-- With no database error the run always ends `completed`. -/
theorem processRun_completes_without_insert_error (ctx : DiscoveryContext)
    (fx : WorkerFx) (run0 : RunRecord) (table0 : List CompetitorRow)
    (hins : fx.insertError = none) :
    (processRun ctx fx run0 table0).run.status = DiscoveryStatus.completed ∧
    DiscoveryStatus.failed ∉ (processRun ctx fx run0 table0).statusWrites := by
  simp only [processRun, hins]
  split
  · exact ⟨rfl, by
      show DiscoveryStatus.failed ∉
        [DiscoveryStatus.searching, DiscoveryStatus.completed]
      decide⟩
  · split
    next msg heq =>
      obtain ⟨pr, hok⟩ := saveCompetitors_none_ok
        (deduplicateCompetitors
          (fx.extract (searchCompetitorsFn ctx fx).results ctx.keywords
            ctx.regions (ctx.industries >>= List.head?))
          ((table0.filter (fun row => row.organization_id = ctx.organizationId)).map
            (fun row => row.website)))
        ctx.runId ctx.organizationId table0
      rw [hok] at heq
      exact absurd heq (by simp)
    next saved heq =>
      exact ⟨rfl, by
        show DiscoveryStatus.failed ∉
          [DiscoveryStatus.searching, DiscoveryStatus.extracting,
           DiscoveryStatus.completed]
        decide⟩

/-- A Kuda search result. -/
def resultKuda : SearchResult :=
  { url := "https://kuda.com", title := "Kuda", snippet := "Neobank",
    content := none }

/-- A successful single-result primary response. -/
def okRespKuda : ProviderResponse :=
  { success := true, results := [resultKuda], provider := "firecrawl",
    error := none }

/-- The credits-exhausted primary response. -/
def creditsResp : ProviderResponse :=
  { success := false, results := [], provider := "firecrawl",
    error := some "INSUFFICIENT_CREDITS" }

/-- Effects: the first query succeeds with one result, every later query
reports exhausted credits. -/
def fxCredits : WorkerFx :=
  { firecrawlAvailable := true
    firecrawl := fun q => if q = "a startup Nigeria" then okRespKuda else creditsResp
    fallback := fun _ _ =>
      { success := true, results := [resultKuda], provider := "ai", error := none }
    extract := fun _ _ _ _ => []
    insertError := none }

/-- A two-keyword context whose queries are `a startup Nigeria` and
`b startup Nigeria`. -/
def ctxCredits : DiscoveryContext := { ctxBase with keywords := ["a", "b"] }

/-- C4 (counterexample): in a run where the primary provider reports
insufficient_credits on the second query after the first query returned a
result, the AI fallback is never invoked (zero calls, not exactly one) — the
fallback only runs when the whole primary aggregate is empty. -/
theorem C4_counterexample :
    "b startup Nigeria" ∈ (searchCompetitorsFn ctxCredits fxCredits).issuedQueries ∧
    isCreditsFailure (fxCredits.firecrawl "b startup Nigeria") = true ∧
    (searchCompetitorsFn ctxCredits fxCredits).fallbackInvoked = false ∧
    (searchCompetitorsFn ctxCredits fxCredits).results = [resultKuda] := by
  decide

/-- C4 (amended): on an insufficient_credits report the worker issues no
further primary queries (the issued list is the stop-at-credits prefix of
the built queries, ending at the first credits failure); the AI fallback is
invoked exactly once if and only if the primary aggregate is empty
(otherwise not at all); primary results are URL-deduplicated across
queries; and the run completes whenever the insert reports no error. -/
theorem C4_amended_credit_exhaustion :
    (∀ (ctx : DiscoveryContext) (fx : WorkerFx), fx.firecrawlAvailable = true →
      (searchCompetitorsFn ctx fx).issuedQueries =
        takeThroughCredits fx (buildSearchQueries ctx)) ∧
    (∀ (fx : WorkerFx) (qs : List String),
      (takeThroughCredits fx qs).IsPrefix qs) ∧
    (∀ (fx : WorkerFx) (qs1 : List String) (q : String) (qs2 : List String),
      isCreditsFailure (fx.firecrawl q) = true →
      (∀ p ∈ qs1, isCreditsFailure (fx.firecrawl p) = false) →
      takeThroughCredits fx (qs1 ++ q :: qs2) = qs1 ++ [q]) ∧
    (∀ (ctx : DiscoveryContext) (fx : WorkerFx),
      (searchCompetitorsFn ctx fx).fallbackInvoked =
        (primaryOutcome ctx fx).1.isEmpty) ∧
    (∀ (ctx : DiscoveryContext) (fx : WorkerFx),
      (((primaryOutcome ctx fx).1.map (fun r => r.url)).Nodup)) ∧
    (∀ (ctx : DiscoveryContext) (fx : WorkerFx) (run0 : RunRecord)
        (table0 : List CompetitorRow), fx.insertError = none →
      (processRun ctx fx run0 table0).run.status = DiscoveryStatus.completed ∧
      DiscoveryStatus.failed ∉ (processRun ctx fx run0 table0).statusWrites) := by
  refine ⟨?_, takeThroughCredits_isPrefix, takeThroughCredits_stops, ?_, ?_,
    processRun_completes_without_insert_error⟩
  · intro ctx fx hav
    simp only [searchCompetitorsFn]
    split
    · simp only [primaryOutcome, hav, if_true]
      exact primaryPhase_issued fx (buildSearchQueries ctx) [] []
    · simp only [primaryOutcome, hav, if_true]
      exact primaryPhase_issued fx (buildSearchQueries ctx) [] []
  · intro ctx fx
    simp only [searchCompetitorsFn]
    by_cases h : (primaryOutcome ctx fx).1.isEmpty = true
    · simp [h]
    · simp [h]
  · intro ctx fx
    unfold primaryOutcome
    split
    · exact primaryPhase_results_nodup fx (buildSearchQueries ctx) [] []
        (by intro r hr; simp at hr) (by simp)
    · simp

/-- C4 witness: the amended statement at the concrete credits-exhaustion
run. -/
theorem C4_amended_credit_exhaustion_witness :
    (fxCredits.firecrawlAvailable = true ∧
      (searchCompetitorsFn ctxCredits fxCredits).issuedQueries =
        takeThroughCredits fxCredits (buildSearchQueries ctxCredits)) ∧
    (isCreditsFailure (fxCredits.firecrawl "b startup Nigeria") = true ∧
      (∀ p ∈ ["a startup Nigeria"],
        isCreditsFailure (fxCredits.firecrawl p) = false) ∧
      takeThroughCredits fxCredits
          (["a startup Nigeria"] ++ "b startup Nigeria" :: []) =
        ["a startup Nigeria"] ++ ["b startup Nigeria"]) ∧
    (fxCredits.insertError = none ∧
      (processRun ctxCredits fxCredits runPending []).run.status =
        DiscoveryStatus.completed ∧
      DiscoveryStatus.failed ∉
        (processRun ctxCredits fxCredits runPending []).statusWrites) := by
  have hav : fxCredits.firecrawlAvailable = true := rfl
  have hcr : isCreditsFailure (fxCredits.firecrawl "b startup Nigeria") = true := by
    decide
  have hpre : ∀ p ∈ ["a startup Nigeria"],
      isCreditsFailure (fxCredits.firecrawl p) = false := by decide
  have hins : fxCredits.insertError = none := rfl
  exact ⟨⟨hav, C4_amended_credit_exhaustion.1 ctxCredits fxCredits hav⟩,
    ⟨hcr, hpre, C4_amended_credit_exhaustion.2.2.1 fxCredits ["a startup Nigeria"]
      "b startup Nigeria" [] hcr hpre⟩,
    ⟨hins, C4_amended_credit_exhaustion.2.2.2.2.2 ctxCredits fxCredits runPending []
      hins⟩⟩

/-! ## Claim C5 -/

/-- A context whose keyword list is empty. -/
def ctxNoKeywords : DiscoveryContext := { ctxBase with keywords := [] }

/-- C5 (counterexample): `buildSearchQueries` on a context with an empty
keyword list returns the empty list — not a list of 1 to 5 queries, and not
the `["startup company"]` fallback the claim describes. -/
theorem C5_counterexample : buildSearchQueries ctxNoKeywords = [] := by decide

/-- A string of the form `a ++ m ++ b` with `m` non-empty is non-empty. -/
theorem mid_append_ne_empty (a m b : String) (hm : m.length ≠ 0) :
    a ++ m ++ b ≠ "" := by
  intro h
  have hl : (a ++ m ++ b).length = (0 : Nat) := by rw [h]; rfl
  rw [String.length_append, String.length_append] at hl
  omega

/-- The query-building double loop, generalized over the industry value. -/
theorem buildQueries_mem_ne_empty (keywords regions : List String)
    (ind : String) (q : String)
    (hq : q ∈ (keywords.map (fun keyword =>
      (regions.map (fun region =>
        let regionName := getRegionName region
        let primary := keyword ++ " startup " ++ regionName
        if ind ≠ "" then
          [primary, keyword ++ " " ++ ind ++ " company " ++ regionName]
        else
          [primary])).flatten)).flatten) :
    q ≠ "" := by
  rcases List.mem_flatten.mp hq with ⟨inner, hinner, hqin⟩
  rcases List.mem_map.mp hinner with ⟨keyword, _, rfl⟩
  rcases List.mem_flatten.mp hqin with ⟨cell, hcell, hqc⟩
  rcases List.mem_map.mp hcell with ⟨region, _, rfl⟩
  dsimp only at hqc
  by_cases hi : ind ≠ ""
  · rw [if_pos hi] at hqc
    rcases List.mem_cons.mp hqc with h1 | h2
    · rw [h1]
      exact mid_append_ne_empty keyword " startup " (getRegionName region)
        (by decide)
    · rw [List.mem_singleton] at h2
      rw [h2]
      exact mid_append_ne_empty (keyword ++ " " ++ ind) " company "
        (getRegionName region) (by decide)
  · rw [if_neg hi] at hqc
    rw [List.mem_singleton] at hqc
    rw [hqc]
    exact mid_append_ne_empty keyword " startup " (getRegionName region)
      (by decide)

/-- C5 (amended): `buildSearchQueries` returns at most 5 queries, each a
non-empty string; it returns at least one query exactly when both the
keyword list and the region list are non-empty; an empty keyword or region
list yields the empty list — this function has no fallback query. -/
theorem C5_amended_query_bounds :
    (∀ ctx : DiscoveryContext, (buildSearchQueries ctx).length ≤ 5) ∧
    (∀ (ctx : DiscoveryContext) (q : String),
      q ∈ buildSearchQueries ctx → q ≠ "") ∧
    (∀ ctx : DiscoveryContext,
      buildSearchQueries ctx ≠ [] ↔ (ctx.keywords ≠ [] ∧ ctx.regions ≠ [])) := by
  refine ⟨?_, ?_, ?_⟩
  · intro ctx
    simp only [buildSearchQueries]
    exact List.length_take_le 5 _
  · intro ctx q hq
    simp only [buildSearchQueries] at hq
    exact buildQueries_mem_ne_empty ctx.keywords ctx.regions _ q
      (List.mem_of_mem_take hq)
  · intro ctx
    constructor
    · intro hne
      constructor
      · intro hk
        exact hne (by simp [buildSearchQueries, hk])
      · intro hr
        exact hne (by simp [buildSearchQueries, hr])
    · rintro ⟨hk, hr⟩ hempty
      obtain ⟨k, ks, hkk⟩ := List.exists_cons_of_ne_nil hk
      obtain ⟨r, rs, hrr⟩ := List.exists_cons_of_ne_nil hr
      simp only [buildSearchQueries] at hempty
      rcases List.take_eq_nil_iff.mp hempty with h5 | h0
      · exact absurd h5 (by decide)
      · rw [List.flatten_eq_nil_iff] at h0
        have hkmem : k ∈ ctx.keywords := by
          rw [hkk]; exact List.mem_cons_self k ks
        have hrmem : r ∈ ctx.regions := by
          rw [hrr]; exact List.mem_cons_self r rs
        have hcellk := h0 _ (List.mem_map.mpr ⟨k, hkmem, rfl⟩)
        rw [List.flatten_eq_nil_iff] at hcellk
        have hcellr := hcellk _ (List.mem_map.mpr ⟨r, hrmem, rfl⟩)
        by_cases hi : (match ctx.industries with
          | some (i :: _) => i
          | _ => "") ≠ ""
        · rw [if_pos hi] at hcellr
          exact absurd hcellr (by simp)
        · rw [if_neg hi] at hcellr
          exact absurd hcellr (by simp)

/-- C5 witness: the amended statement at a concrete context and a concrete
query of it. -/
theorem C5_amended_query_bounds_witness :
    (buildSearchQueries ctxBase).length ≤ 5 ∧
    ("payments startup Nigeria" ∈ buildSearchQueries ctxBase) ∧
    ("payments startup Nigeria" : String) ≠ "" ∧
    (buildSearchQueries ctxBase ≠ [] ↔
      (ctxBase.keywords ≠ [] ∧ ctxBase.regions ≠ [])) := by
  have hmem : "payments startup Nigeria" ∈ buildSearchQueries ctxBase := by decide
  exact ⟨C5_amended_query_bounds.1 ctxBase, hmem,
    C5_amended_query_bounds.2.1 ctxBase _ hmem,
    C5_amended_query_bounds.2.2 ctxBase⟩

/-! ## Claim C6 -/

/-- The claim's normalization, written from the claim's words for
comparison: lowercase of the hostname with only a LEADING `www.` stripped.
(The code strips the first occurrence of `www.` anywhere in the
hostname.) -/
def specNormalizeLeadingWww (url : String) : Option String :=
  let candidate := if strStartsWith url "http" then url else "https://" ++ url
  match urlHostname candidate with
  | some h =>
    some (String.mk
      ((if "www.".data.isPrefixOf h.data then h.data.drop 4 else h.data).map
        Char.toLower))
  | none => none

/-- The claim's two-stage deduplication under `specNormalizeLeadingWww`
(first occurrence per normalized domain wins, then drop domains already
among the organization's websites). -/
def specDedupAux (seen : List String) :
    List BasicCompetitor → List BasicCompetitor
  | [] => []
  | c :: rest =>
    match specNormalizeLeadingWww c.website with
    | some d =>
      if d ≠ "" && !(seen.contains d) then c :: specDedupAux (d :: seen) rest
      else specDedupAux seen rest
    | none => specDedupAux seen rest

/-- Stage two of the claim's deduplication. -/
def specDedupLeadingWww (competitors : List BasicCompetitor)
    (existingWebsites : List String) : List BasicCompetitor :=
  let uniq := specDedupAux [] competitors
  let existingDomains :=
    (existingWebsites.filterMap specNormalizeLeadingWww).filter (fun d => d ≠ "")
  uniq.filter (fun c =>
    match specNormalizeLeadingWww c.website with
    | some d => d ≠ "" && !(existingDomains.contains d)
    | none => false)

/-- A website whose hostname contains a non-leading `www.`. -/
def compSubWww : BasicCompetitor :=
  { name := "A", website := "https://a.www.example.com", description := "",
    industry := "", country := "NG", logo_url := none }

/-- The website the code conflates with `compSubWww`. -/
def compSub : BasicCompetitor :=
  { name := "B", website := "https://a.example.com", description := "",
    industry := "", country := "NG", logo_url := none }

/-- C6 (counterexample): the code's `extractDomain` removes the first
`www.` anywhere in the hostname, not only a leading one, so it conflates
`a.www.example.com` with `a.example.com`: `deduplicateCompetitors` keeps
only the first of the two, while the claim's leading-`www.` normalization
would keep both. -/
theorem C6_counterexample :
    extractDomain "https://a.www.example.com" = some "a.example.com" ∧
    specNormalizeLeadingWww "https://a.www.example.com" =
      some "a.www.example.com" ∧
    deduplicateCompetitors [compSubWww, compSub] [] = [compSubWww] ∧
    specDedupLeadingWww [compSubWww, compSub] [] = [compSubWww, compSub] := by
  decide

/-- The claim's algorithm under the CODE's normalization, fused into one
pass: keep a candidate exactly when its normalized domain is truthy, has
not occurred earlier in the batch, and is not among the organization's
normalized existing domains. -/
def amendedDedupAux (seenDoms existingN : List String) :
    List BasicCompetitor → List BasicCompetitor
  | [] => []
  | c :: rest =>
    match truthyDomain c with
    | some d =>
      if seenDoms.contains d then amendedDedupAux seenDoms existingN rest
      else if existingN.contains d then
        amendedDedupAux (d :: seenDoms) existingN rest
      else c :: amendedDedupAux (d :: seenDoms) existingN rest
    | none => amendedDedupAux seenDoms existingN rest

/-- Fusing the two stages of `deduplicateCompetitors` into the single
first-wins pass. -/
theorem dedup_fusion :
    ∀ (l : List BasicCompetitor) (seen E : List String),
    (dedupeBatchAux seen l).filter (keepPred E) = amendedDedupAux seen E l := by
  intro l
  induction l with
  | nil => intro seen E; rfl
  | cons c rest ih =>
    intro seen E
    unfold dedupeBatchAux amendedDedupAux truthyDomain
    rcases hdom : extractDomain c.website with _ | d
    · simp only [hdom]
      exact ih seen E
    · simp only [hdom]
      by_cases hd0 : d = ""
      · subst hd0
        simp
        exact ih seen E
      · by_cases hseen : d ∈ seen
        · simp [hd0, hseen]
          exact ih seen E
        · by_cases hex : d ∈ E
          · have hkp : keepPred E c = false := by
              simp [keepPred, hdom, hex]
            simp [hd0, hseen, hex, hkp]
            exact ih (d :: seen) E
          · have hkp : keepPred E c = true := by
              simp [keepPred, hdom, hex, hd0]
            simp [hd0, hseen, hex, hkp]
            exact ih (d :: seen) E

/-- C6 (amended): `deduplicateCompetitors` keeps exactly the first
candidate in input order for each normalized domain and then drops every
candidate whose normalized domain matches an existing website of the
organization — where the normalization is the code's `extractDomain`:
lowercased hostname with the FIRST occurrence of `www.` (anywhere, not only
leading) removed, and falsy (null or empty) domains dropped. -/
theorem C6_amended_dedup_first_wins :
    ∀ (competitors : List BasicCompetitor) (existingWebsites : List String),
      deduplicateCompetitors competitors existingWebsites =
        amendedDedupAux [] (existingDomainSet existingWebsites) competitors := by
  intro comps ws
  simp only [deduplicateCompetitors]
  exact dedup_fusion comps [] (existingDomainSet ws)

/-! ## Claim C7 -/

/-- An extracted record whose only field is a total_funding string. -/
def extractedWithFunding (tf : String) : ExtractedData :=
  { ExtractedData.empty with total_funding := some tf }

/-- The funding field of the merge is exactly the guarded regex parse. -/
theorem merge_funding_amount (i : InitialData) (tf : String)
    (sp : SocialProfile) (url : String) :
    (mergeCompetitorData i (extractedWithFunding tf) sp url).funding_amount_usd =
      if tf ≠ "" then parseFundingAmount tf else FundingParse.undef := rfl

/-- C7 (counterexample): the funding string "." matches the number regex,
but `parseFloat` of the matched token is NaN, so the merge stores NaN —
neither a numeric USD amount nor null — contradicting "an unparseable
string yields null". -/
theorem C7_counterexample :
    jsParseFloatNum ".".data = none ∧
    (mergeCompetitorData InitialData.empty (extractedWithFunding ".")
        SocialProfile.empty "https://x.com").funding_amount_usd =
      FundingParse.nan ∧
    FundingParse.nan ≠ FundingParse.undef := by
  refine ⟨by decide, ?_, by decide⟩
  rw [merge_funding_amount]
  decide

/-- A string with no digit and no dot never matches the funding regex. -/
theorem findNumGroup_eq_none :
    ∀ {l : List Char}, (∀ ch ∈ l, isNumChar ch = false) →
    findNumGroup l = none := by
  intro l
  induction l with
  | nil => intro _; rfl
  | cons ch rest ih =>
    intro h
    have hch : isNumChar ch = false := h ch (List.mem_cons_self ch rest)
    have hrest : ∀ x ∈ rest, isNumChar x = false :=
      fun x hx => h x (List.mem_cons_of_mem ch hx)
    unfold findNumGroup
    simp only [hch, Bool.false_eq_true, if_false]
    by_cases hd : ch = '$'
    · rw [if_pos hd]
      cases rest with
      | nil => rfl
      | cons r rr =>
        have hr : isNumChar r = false := hrest r (List.mem_cons_self r rr)
        simp only [hr, Bool.false_eq_true, if_false]
        exact ih hrest
    · rw [if_neg hd]
      exact ih hrest

/-- C7 (amended): the merge applies the suffix multiplier table
{K: 1e3, M: 1e6, B: 1e9} (case-insensitively) to the first number found by
the regex: "$2.5B" gives 2_500_000_000, "€800K" gives 800_000, "$1.2M"
gives 1_200_000; a string containing no digit and no dot (such as "tbd")
yields undefined (null); and a matched token that parseFloat cannot read
(such as ".") yields NaN rather than null. -/
theorem C7_amended_funding_parse :
    (mergeCompetitorData InitialData.empty (extractedWithFunding "$2.5B")
        SocialProfile.empty "https://x.com").funding_amount_usd =
      FundingParse.val 2500000000 ∧
    (mergeCompetitorData InitialData.empty (extractedWithFunding "€800K")
        SocialProfile.empty "https://x.com").funding_amount_usd =
      FundingParse.val 800000 ∧
    (mergeCompetitorData InitialData.empty (extractedWithFunding "$1.2M")
        SocialProfile.empty "https://x.com").funding_amount_usd =
      FundingParse.val 1200000 ∧
    (∀ s : String, (∀ ch ∈ s.data, isNumChar ch = false) →
      parseFundingAmount s = FundingParse.undef) ∧
    (mergeCompetitorData InitialData.empty (extractedWithFunding "tbd")
        SocialProfile.empty "https://x.com").funding_amount_usd =
      FundingParse.undef ∧
    parseFundingAmount "3k" = FundingParse.val 3000 ∧
    parseFundingAmount "3m" = FundingParse.val 3000000 ∧
    parseFundingAmount "3b" = FundingParse.val 3000000000 ∧
    parseFundingAmount "." = FundingParse.nan := by
  refine ⟨?_, ?_, ?_, ?_, ?_, ?_, ?_, ?_, by decide⟩
  · rw [merge_funding_amount]
    simp [parseFundingAmount, findNumGroup, isNumChar, jsParseFloatNum,
      digitsToNat]
    norm_num
  · rw [merge_funding_amount]
    simp [parseFundingAmount, findNumGroup, isNumChar, jsParseFloatNum,
      digitsToNat]
    norm_num
  · rw [merge_funding_amount]
    simp [parseFundingAmount, findNumGroup, isNumChar, jsParseFloatNum,
      digitsToNat]
    norm_num
  · intro s h
    unfold parseFundingAmount
    rw [findNumGroup_eq_none h]
  · rw [merge_funding_amount]
    simp [parseFundingAmount, findNumGroup, isNumChar]
  · simp [parseFundingAmount, findNumGroup, isNumChar, jsParseFloatNum,
      digitsToNat]
    norm_num
  · simp [parseFundingAmount, findNumGroup, isNumChar, jsParseFloatNum,
      digitsToNat]
    norm_num
  · simp [parseFundingAmount, findNumGroup, isNumChar, jsParseFloatNum,
      digitsToNat]
    norm_num

/-- C7 witness: the no-digit clause of the amended statement at "tbd". -/
theorem C7_amended_funding_parse_witness :
    (∀ ch ∈ ("tbd" : String).data, isNumChar ch = false) ∧
    parseFundingAmount "tbd" = FundingParse.undef := by
  have h : ∀ ch ∈ ("tbd" : String).data, isNumChar ch = false := by decide
  exact ⟨h, C7_amended_funding_parse.2.2.2.1 "tbd" h⟩

/-! ## Claim C8 -/

/-- A model candidate whose country field is the word "nigeria". -/
def rawNigeria : RawCandidate :=
  { name := some "Moniepoint", website := some "https://moniepoint.com",
    description := none, industry := none, country := some "nigeria",
    logo_url := none }

/-- C8 (counterexample): the extractor's country normalization is a bare
uppercase-and-truncate: "nigeria" maps to "NI", not the ISO-3166 code "NG",
and the candidate is kept (candidates are only dropped for a missing name
or website, never for an ambiguous country). -/
theorem C8_counterexample :
    normalizeCountry (some "nigeria") = "NI" ∧
    ("NI" : String) ≠ "NG" ∧
    (cleanCandidates [rawNigeria] none).map (fun c => c.country) = ["NI"] := by
  decide

/-- C8 (amended): every candidate the extractor returns carries
`country = uppercase(truncate₂(model country))`, at most two characters:
"NGA" maps to "NG" but "nigeria" maps to "NI"; candidates are never dropped
because of the country — the cleaning keeps exactly the candidates with a
truthy name and website. -/
theorem C8_amended_country_normalization :
    (normalizeCountry (some "NGA") = "NG") ∧
    (normalizeCountry (some "nigeria") = "NI") ∧
    (∀ country : Option String, (normalizeCountry country).data.length ≤ 2) ∧
    (∀ (parsed : List RawCandidate) (ctxI : Option String)
        (c : BasicCompetitor), c ∈ cleanCandidates parsed ctxI →
      ∃ raw ∈ parsed, (jsTruthyS raw.name && jsTruthyS raw.website) = true ∧
        c.country = normalizeCountry raw.country) ∧
    (∀ (parsed : List RawCandidate) (ctxI : Option String),
      (cleanCandidates parsed ctxI).length =
        (parsed.filter (fun c => jsTruthyS c.name && jsTruthyS c.website)).length) := by
  refine ⟨by decide, by decide, ?_, ?_, ?_⟩
  · intro country
    rcases country with _ | sc
    · decide
    · show ((sc.data.map Char.toUpper).take 2).length ≤ 2
      exact List.length_take_le 2 _
  · intro parsed ctxI c hc
    unfold cleanCandidates at hc
    rcases List.mem_map.mp hc with ⟨raw, hrawmem, hmap⟩
    have hfilter := List.mem_filter.mp hrawmem
    exact ⟨raw, hfilter.1, hfilter.2, by rw [← hmap]⟩
  · intro parsed ctxI
    unfold cleanCandidates
    simp

/-- The cleaned form of `rawNigeria`. -/
def cleanedNigeria : BasicCompetitor :=
  { name := "Moniepoint", website := "https://moniepoint.com",
    description := "", industry := "", country := "NI", logo_url := none }

/-- C8 witness: the amended statement at the concrete "nigeria"
candidate. -/
theorem C8_amended_country_normalization_witness :
    cleanedNigeria ∈ cleanCandidates [rawNigeria] none ∧
    (∃ raw ∈ [rawNigeria], (jsTruthyS raw.name && jsTruthyS raw.website) = true ∧
      cleanedNigeria.country = normalizeCountry raw.country) := by
  have hmem : cleanedNigeria ∈ cleanCandidates [rawNigeria] none := by decide
  exact ⟨hmem, C8_amended_country_normalization.2.2.2.1 [rawNigeria] none
    cleanedNigeria hmem⟩

/-! ## Claim C9 -/

/-- Enrichment effects in which every sub-step fails. -/
def allFailFx : EnrichFx :=
  { scrapeExtract := Except.error "scrape failed"
    crawl := Except.error "crawl failed"
    extractSocial := Except.error "social extraction failed"
    socialEnrich := fun _ => Except.error "social enrichment failed"
    aiAnalysis := none }

/-- C9 (counterexample): with every sub-step failing (scrape included) and
default options, the returned record's data_sources is
["website", "ai_analysis"]: "website" is recorded although the scrape
returned no data, and "ai_analysis" although the model call failed — its
failure is swallowed inside generateAiAnalysis. -/
theorem C9_counterexample :
    (enrichCompetitor "https://example.com" none none allFailFx).data_sources =
      ["website", "ai_analysis"] := by decide

/-- C9 (amended): when every enrichment sub-step fails,
`enrichCompetitor` still returns a record (no sub-step failure
propagates), but data_sources does not record only contributing steps:
it is always ["website"] — regardless of the scrape's failure — plus
"ai_analysis" whenever AI analysis is enabled (a failed model call is
swallowed); only crawl and social sources are conditional on success.
With all steps failed and no initial data, confidence_score ≤ 30. -/
theorem C9_amended_enrichment_sources
    (url : String) (initialData : Option InitialData)
    (options : Option EnrichOptions) (fx : EnrichFx)
    (e1 e2 e3 : String) (e4 : SocialLinks → String)
    (h1 : fx.scrapeExtract = Except.error e1)
    (h2 : fx.crawl = Except.error e2)
    (h3 : fx.extractSocial = Except.error e3)
    (h4 : ∀ sl, fx.socialEnrich sl = Except.error (e4 sl))
    (h5 : fx.aiAnalysis = none) :
    (enrichCompetitor url initialData options fx).data_sources =
      (if aiAnalysisEnabled options then ["website", "ai_analysis"]
       else ["website"]) ∧
    (initialData = none →
      (enrichCompetitor url initialData options fx).confidence_score ≤ 30) := by
  constructor
  · by_cases hai : aiAnalysisEnabled options = true
    · simp [enrichCompetitor, h1, h2, h3, h4, h5, hai]
    · simp [enrichCompetitor, h1, h2, h3, h4, h5, hai]
  · intro hinit
    subst hinit
    by_cases hai : aiAnalysisEnabled options = true
    · simp [enrichCompetitor, h1, h2, h3, h4, h5, hai, mergeCompetitorData,
        jsOrStr, jsOrNum, jsOrObj, jsTruthyS, calculateConfidenceScore,
        calculateDataCompleteness, importantFieldsFilled, strFilled,
        arrFilled, objFilled, roundThirty, SocialLinks.keysCount,
        SocialLinks.empty, LinkedInData.empty, InitialData.empty,
        ExtractedData.empty, SocialProfile.empty]
      split_ifs <;> decide
    · simp [enrichCompetitor, h1, h2, h3, h4, h5, hai, mergeCompetitorData,
        jsOrStr, jsOrNum, jsOrObj, jsTruthyS, calculateConfidenceScore,
        calculateDataCompleteness, importantFieldsFilled, strFilled,
        arrFilled, objFilled, roundThirty, SocialLinks.keysCount,
        SocialLinks.empty, LinkedInData.empty, InitialData.empty,
        ExtractedData.empty, SocialProfile.empty]
      split_ifs <;> decide

/-- C9 witness: the amended statement at the all-fail effects with default
options and no initial data. -/
theorem C9_amended_enrichment_sources_witness :
    (allFailFx.scrapeExtract = Except.error "scrape failed" ∧
      allFailFx.aiAnalysis = none) ∧
    ((enrichCompetitor "https://example.com" none none allFailFx).data_sources =
      (if aiAnalysisEnabled none then ["website", "ai_analysis"]
       else ["website"]) ∧
    ((none : Option InitialData) = none →
      (enrichCompetitor "https://example.com" none none allFailFx).confidence_score ≤ 30)) := by
  refine ⟨⟨rfl, rfl⟩, ?_⟩
  exact C9_amended_enrichment_sources "https://example.com" none none allFailFx
    "scrape failed" "crawl failed" "social extraction failed"
    (fun _ => "social enrichment failed") rfl rfl rfl (fun _ => rfl) rfl

/-! ## Claim C10 -/

/-- The shape of the table returned by a successful save. -/
theorem saveCompetitors_ok_table {comps : List BasicCompetitor}
    {runId orgId : String} {table : List CompetitorRow}
    {ie : Option String} {pr : List CompetitorRow × Nat}
    (h : saveCompetitors comps runId orgId table ie = Except.ok pr) :
    pr.1 = table ∨ pr.1 = table ++ comps.map (toCompetitorRecord orgId runId) := by
  cases comps with
  | nil =>
    simp [saveCompetitors] at h
    rw [← h]
    exact Or.inl rfl
  | cons a l =>
    cases ie with
    | none =>
      simp [saveCompetitors] at h
      rw [← h]
      exact Or.inr (by simp)
    | some msg => simp [saveCompetitors] at h

/-- C10: a website that parses as a URL neither as-is nor after prefixing
`https://` makes `extractDomain` return null instead of throwing; such a
candidate is silently dropped by `deduplicateCompetitors`; and every row
the worker's save writes that was not already in the table has a truthy
domain — a competitor with an unparseable website never reaches
persistence. -/
theorem C10_unparseable_website_never_persisted :
    (∀ url : String, urlHostname url = none →
      urlHostname ("https://" ++ url) = none → extractDomain url = none) ∧
    (∀ (comps : List BasicCompetitor) (websites : List String)
        (c : BasicCompetitor), extractDomain c.website = none →
      c ∉ deduplicateCompetitors comps websites) ∧
    (∀ (ctx : DiscoveryContext) (fx : WorkerFx) (run0 : RunRecord)
        (table0 : List CompetitorRow) (row : CompetitorRow),
      row ∈ (processRun ctx fx run0 table0).table →
      row ∈ table0 ∨ domTruthy (extractDomain row.website) = true) := by
  refine ⟨?_, ?_, ?_⟩
  · intro url hdirect hprefixed
    unfold extractDomain
    by_cases hs : strStartsWith url "http" = true
    · simp only [hs, if_true, hdirect]
    · simp only [hs, Bool.false_eq_true, if_false, hprefixed]
  · intro comps websites c hdom hc
    unfold deduplicateCompetitors at hc
    have hkeep := (List.mem_filter.mp hc).2
    unfold keepPred at hkeep
    rw [hdom] at hkeep
    simp at hkeep
  · intro ctx fx run0 table0 row hrow
    simp only [processRun] at hrow
    split at hrow
    · exact Or.inl hrow
    · split at hrow
      · exact Or.inl hrow
      next saved heq =>
        rcases saveCompetitors_ok_table heq with hsh | hsh <;> rw [hsh] at hrow
        · exact Or.inl hrow
        · rcases List.mem_append.mp hrow with hin | hnew
          · exact Or.inl hin
          · rcases List.mem_map.mp hnew with ⟨c, hcmem, hcrow⟩
            refine Or.inr ?_
            have hc2 := (List.mem_filter.mp hcmem).1
            have htr := dedupeBatchAux_truthy hc2
            rw [← hcrow]
            exact htr

/-- A candidate whose website cannot be parsed even with a prefix. -/
def compBadSite : BasicCompetitor :=
  { name := "Bad", website := "not a url", description := "",
    industry := "", country := "NG", logo_url := none }

/-- C10 witness: the theorem at the concrete unparseable website
"not a url". -/
theorem C10_unparseable_website_never_persisted_witness :
    urlHostname "not a url" = none ∧
    urlHostname ("https://" ++ "not a url") = none ∧
    extractDomain "not a url" = none ∧
    extractDomain compBadSite.website = none ∧
    compBadSite ∉ deduplicateCompetitors [compBadSite] [] ∧
    rowPay ∈ (processRun ctxBase fxNoResults runPending [rowPay]).table ∧
    (rowPay ∈ [rowPay] ∨ domTruthy (extractDomain rowPay.website) = true) := by
  have ha : urlHostname "not a url" = none := by decide
  have hb : urlHostname ("https://" ++ "not a url") = none := by decide
  have hd : extractDomain compBadSite.website = none := by decide
  have hrow : rowPay ∈ (processRun ctxBase fxNoResults runPending [rowPay]).table := by
    decide
  exact ⟨ha, hb,
    C10_unparseable_website_never_persisted.1 "not a url" ha hb, hd,
    C10_unparseable_website_never_persisted.2.1 [compBadSite] [] compBadSite hd,
    hrow,
    C10_unparseable_website_never_persisted.2.2 ctxBase fxNoResults runPending
      [rowPay] rowPay hrow⟩

end Competint
